import Mathlib

/-!
Verification development for the core of an embeddable expression evaluator
(lexer, precedence-climbing tree builder, recursive evaluator, built-in
functions).  The definitions below are a shallow embedding of the three
source files `src/tree/mod.rs`, `src/node/mod.rs` and `src/builtin/mod.rs`.
Auxiliary modules of the crate (`operator`, `error`, `math`, the crate root)
are not part of the provided sources; the corresponding definitions are
modelled from the specification and are marked as such in their doc comments.
-/

namespace Eval

mutual

/-- The dynamically typed JSON-shaped value model (`serde_json::Value`).
Numbers keep the serde tagging: `numU` for values stored as `u64`
(non-negative integers), `numI` for negative 64-bit integers, `numF` for
doubles.  Modelled from the spec: IEEE-754 float payloads are kept as their
literal source text, since the spec excludes numerical precision guarantees
and no verified claim inspects float arithmetic.  Arrays and objects are
represented through the mutually inductive list types below so that all
operations are plain structural recursion. -/
inductive Value where
  | null : Value
  | bool (b : Bool) : Value
  | numU (n : Nat) : Value
  | numI (i : Int) : Value
  | numF (text : String) : Value
  | str (s : String) : Value
  | arr (elems : ValueList) : Value
  | obj (entries : ObjList) : Value

/-- Ordered sequence of values (payload of `Value.arr`). -/
inductive ValueList where
  | nil : ValueList
  | cons (v : Value) (tl : ValueList) : ValueList

/-- Insertion-ordered string-to-value mapping (payload of `Value.obj`). -/
inductive ObjList where
  | nil : ObjList
  | cons (key : String) (v : Value) (tl : ObjList) : ObjList

end

end Eval

namespace Eval

/-- Conversion of a 64-bit signed integer to a serde number: non-negative
values are stored in the unsigned representation (`serde_json::Number`
canonicalisation). -/
def Value.ofInt (i : Int) : Value :=
  if 0 ≤ i then .numU i.toNat else .numI i

/-- True when the value is a string (`Value::is_string`). -/
def Value.isString : Value → Bool
  | .str _ => true
  | _ => false

/-- Payload of a string value (`Value::as_str().unwrap()`; defaulting is
irrelevant because every use is guarded by `isString`). -/
def Value.getStr : Value → String
  | .str s => s
  | _ => ""

/-- True when the value is an object (`Value::is_object`). -/
def Value.isObject : Value → Bool
  | .obj _ => true
  | _ => false

/-- True when the value is an array (`Value::is_array`). -/
def Value.isArray : Value → Bool
  | .arr _ => true
  | _ => false

/-- True when the value is null (`Value::is_null`). -/
def Value.isNull : Value → Bool
  | .null => true
  | _ => false

/-- True when the value is a number stored as `u64` (`Value::is_u64`). -/
def Value.isU64 : Value → Bool
  | .numU _ => true
  | _ => false

/-- Payload of a `u64` number (`Value::as_u64().unwrap()`). -/
def Value.getU64 : Value → Nat
  | .numU n => n
  | _ => 0

/-- Number of elements of an array payload. -/
def ValueList.length : ValueList → Nat
  | .nil => 0
  | .cons _ tl => 1 + tl.length

/-- Zero-based element access in an array payload (`[T]::get`). -/
def ValueList.get? : ValueList → Nat → Option Value
  | .nil, _ => none
  | .cons v _, 0 => some v
  | .cons _ tl, n + 1 => tl.get? n

/-- True when the array payload is empty. -/
def ValueList.isEmpty : ValueList → Bool
  | .nil => true
  | _ => false

/-- Conversion from a Lean list of values. -/
def ValueList.ofList : List Value → ValueList
  | [] => .nil
  | v :: tl => .cons v (ofList tl)

/-- Number of entries of an object payload. -/
def ObjList.length : ObjList → Nat
  | .nil => 0
  | .cons _ _ tl => 1 + tl.length

/-- Key lookup in an object payload (`serde_json::Map::get`); first match. -/
def ObjList.get? : ObjList → String → Option Value
  | .nil, _ => none
  | .cons k v tl, key => if k = key then some v else tl.get? key

/-- True when the object payload is empty. -/
def ObjList.isEmpty : ObjList → Bool
  | .nil => true
  | _ => false

/-- Member access `Value::get(&str)`: `Some` only on objects. -/
def Value.get? : Value → String → Option Value
  | .obj entries, key => entries.get? key
  | _, _ => none

/-- Index access on the array payload of an array value
(`Value::as_array().unwrap().get(i)`). -/
def Value.arrGet? : Value → Nat → Option Value
  | .arr elems, i => elems.get? i
  | _, _ => none

end Eval

namespace Eval

/-- Modelled from the spec: the operator catalog of the missing `operator`
module (spec section 3).  Priority-carrying variants hold their priority
integer. -/
inductive Operator where
  | add (p : Nat) : Operator
  | sub (p : Nat) : Operator
  | mul (p : Nat) : Operator
  | div (p : Nat) : Operator
  | rem (p : Nat) : Operator
  | not (p : Nat) : Operator
  | eq (p : Nat) : Operator
  | ne (p : Nat) : Operator
  | gt (p : Nat) : Operator
  | lt (p : Nat) : Operator
  | ge (p : Nat) : Operator
  | le (p : Nat) : Operator
  | and (p : Nat) : Operator
  | or (p : Nat) : Operator
  | dot (p : Nat) : Operator
  | leftSquareBracket (p : Nat) : Operator
  | rightSquareBracket : Operator
  | leftParenthesis : Operator
  | rightParenthesis : Operator
  | comma : Operator
  | whiteSpace : Operator
  | doubleQuotes : Operator
  | singleQuote : Operator
  | identifier (name : String) : Operator
  | function (name : String) : Operator
  | value (v : Value) : Operator

/-- Modelled from the spec: the error taxonomy of the missing `error`
module (spec section 7). -/
inductive Error where
  | unpairedBrackets : Error
  | unsupportedOperator (token : String) : Error
  | duplicateOperatorNode : Error
  | duplicateValueNode : Error
  | startWithNonValueOperator : Error
  | bracketNotWithFunction : Error
  | commaNotWithFunction : Error
  | canNotAddChild : Error
  | noFinalNode : Error
  | expectedBoolean (v : Value) : Error
  | expectedObject : Error
  | expectedArray : Error
  | expectedIdentifier : Error
  | expectedNumber : Error
  | invalidRange (text : String) : Error
  | functionNotExists (name : String) : Error
  | argumentsGreater (n : Nat) : Error
  | argumentsLess (n : Nat) : Error
  | canNotExec (op : Operator) : Error
  | custom (message : String) : Error

/-- Outcome-level errors of the embedding: either a structured `Error`
value returned by the Rust code, or `panicked`, marking a place where the
Rust code would panic (an `unwrap` on `None` or popping an empty stack).
Keeping panics distinct from returned errors keeps the embedding faithful;
`fuelOut` marks exhaustion of an explicit iteration budget and is
unreachable at the budgets used in this development. -/
inductive RtError where
  | err (e : Error) : RtError
  | panicked : RtError
  | fuelOut : RtError

/-- Decimal value of a run of ASCII digits; `none` when empty or when a
non-digit occurs. -/
def digitsVal : List Char → Option Nat
  | [] => none
  | cs => go cs 0
where
  /-- Accumulating loop over the digit characters. -/
  go : List Char → Nat → Option Nat
  | [], acc => some acc
  | c :: tl, acc =>
      if c.isDigit then go tl (acc * 10 + (c.toNat - 48)) else none

/-- Modelled from the spec: Rust `u64::from_str` — optional leading plus,
decimal digits, range check against `2^64`. -/
def parse_u64 (s : String) : Option Nat :=
  let cs := match s.toList with
    | '+' :: tl => tl
    | cs => cs
  match digitsVal cs with
  | some n => if n < 2 ^ 64 then some n else none
  | none => none

/-- Modelled from the spec: Rust `i64::from_str` — optional sign, decimal
digits, range check against `±2^63`. -/
def parse_i64 (s : String) : Option Int :=
  match s.toList with
  | '+' :: tl =>
      match digitsVal tl with
      | some n => if n < 2 ^ 63 then some (n : Int) else none
      | none => none
  | '-' :: tl =>
      match digitsVal tl with
      | some n => if n ≤ 2 ^ 63 then some (-(n : Int)) else none
      | none => none
  | cs =>
      match digitsVal cs with
      | some n => if n < 2 ^ 63 then some (n : Int) else none
      | none => none

/-- True when every character is an ASCII digit and the list is nonempty. -/
def allDigits (cs : List Char) : Bool :=
  !cs.isEmpty && cs.all Char.isDigit

/-- Mantissa check of the Rust float grammar: `digits`, `digits . digits?`
or `. digits`. -/
def floatMantissaOk (cs : List Char) : Bool :=
  match cs.span (fun c => c ≠ '.') with
  | (intPart, []) => allDigits intPart
  | (intPart, _dot :: fracPart) =>
      if fracPart.contains '.' then false
      else if intPart.isEmpty then allDigits fracPart
      else allDigits intPart && (fracPart.isEmpty || allDigits fracPart)

/-- Modelled from the spec: acceptance test of Rust `f64::from_str` —
optional sign, then `inf`, `infinity` or `nan` (case-insensitive) or a
decimal mantissa with optional exponent. -/
def parse_f64_ok (s : String) : Bool :=
  let cs := match s.toList with
    | '+' :: tl => tl
    | '-' :: tl => tl
    | cs => cs
  let lower := cs.map Char.toLower
  if lower = "inf".toList || lower = "infinity".toList || lower = "nan".toList then
    true
  else
    match lower.span (fun c => c ≠ 'e') with
    | (mant, []) => floatMantissaOk mant
    | (mant, _e :: expPart) =>
        floatMantissaOk mant &&
          (match expPart with
            | '+' :: tl => allDigits tl
            | '-' :: tl => allDigits tl
            | tl => allDigits tl)

/-- Numeric reinterpretation of an identifier text (`parse_number` in
`src/tree/mod.rs`): try `u64`, then `i64`, then `f64`. -/
def parse_number (ident : String) : Option Value :=
  match parse_u64 ident with
  | some n => some (.numU n)
  | none =>
      match parse_i64 ident with
      | some i => some (Value.ofInt i)
      | none => if parse_f64_ok ident then some (.numF ident) else none

end Eval

namespace Eval

/-- Modelled from the spec: the token-to-operator mapping of the missing
`operator` module (spec sections 3 and 4.2).  Fixed symbols map to their
priority-carrying variants (priorities from the spec table); every other
token — including numeric text — stays an `Identifier`. -/
def Operator.from_str (raw : String) : Operator :=
  match raw with
  | "+" => .add 4
  | "-" => .sub 4
  | "*" => .mul 5
  | "/" => .div 5
  | "%" => .rem 5
  | "(" => .leftParenthesis
  | ")" => .rightParenthesis
  | "[" => .leftSquareBracket 7
  | "]" => .rightSquareBracket
  | "," => .comma
  | " " => .whiteSpace
  | "." => .dot 7
  | "!" => .not 6
  | "==" => .eq 3
  | "!=" => .ne 3
  | ">" => .gt 3
  | "<" => .lt 3
  | ">=" => .ge 3
  | "<=" => .le 3
  | "&&" => .and 2
  | "||" => .or 1
  | "\"" => .doubleQuotes
  | "\x27" => .singleQuote
  | s => .identifier s

/-- Modelled from the spec: priority of an operator (spec section 3 table);
operators outside the table have priority `0`. -/
def Operator.get_priority : Operator → Nat
  | .add p | .sub p | .mul p | .div p | .rem p | .not p
  | .eq p | .ne p | .gt p | .lt p | .ge p | .le p
  | .and p | .or p | .dot p | .leftSquareBracket p => p
  | _ => 0

/-- Modelled from the spec: operators allowed to open an expression —
`Sub`, `Not`, `LeftParenthesis`, `Add` (spec section 3 classifiers). -/
def Operator.can_at_beginning : Operator → Bool
  | .sub _ | .not _ | .leftParenthesis | .add _ => true
  | _ => false

/-- Modelled from the spec: operators that may receive children — the
priority-carrying operators (including `Dot` and `LeftSquareBracket`) and
`Function`.  The `LeftParenthesis` marker takes no children: the builder
keeps it on the stack purely as a marker (spec section 4.5 step 3) and
grouped expressions are attached to the node below it on closing. -/
def Operator.can_have_child : Operator → Bool
  | .add _ | .sub _ | .mul _ | .div _ | .rem _ | .not _
  | .eq _ | .ne _ | .gt _ | .lt _ | .ge _ | .le _
  | .and _ | .or _ | .dot _ | .leftSquareBracket _
  | .function _ => true
  | _ => false

/-- Modelled from the spec: classifier for literal/identifier operators. -/
def Operator.is_value_or_ident : Operator → Bool
  | .value _ | .identifier _ => true
  | _ => false

/-- Modelled from the spec: classifier for left openers (`LeftParenthesis`,
`LeftSquareBracket`, `Function`). -/
def Operator.is_left : Operator → Bool
  | .leftParenthesis | .leftSquareBracket _ | .function _ => true
  | _ => false

/-- Modelled from the spec: maximal child count.  Binary operators take 2,
`Not` takes 1, chains and functions are unbounded (`none`), and the
`LeftParenthesis` marker takes 0 (see `Operator.can_have_child`). -/
def Operator.get_max_args : Operator → Option Nat
  | .add _ | .sub _ | .mul _ | .div _ | .rem _
  | .eq _ | .ne _ | .gt _ | .lt _ | .ge _ | .le _
  | .and _ | .or _ => some 2
  | .not _ => some 1
  | .leftParenthesis => some 0
  | _ => none

/-- True when the operator is a `Dot` (`Operator::is_dot`). -/
def Operator.is_dot : Operator → Bool
  | .dot _ => true
  | _ => false

/-- True when the operator is an `Identifier` (`Operator::is_identifier`). -/
def Operator.is_identifier : Operator → Bool
  | .identifier _ => true
  | _ => false

/-- Name payload of an `Identifier` (`Operator::get_identifier`); every use
is guarded by `is_identifier`. -/
def Operator.get_identifier : Operator → String
  | .identifier s => s
  | _ => ""

/-- Modelled from the spec: left counterpart of a closing bracket
(`Operator::get_left`); only ever called on the two right brackets. -/
def Operator.get_left : Operator → Operator
  | .rightSquareBracket => .leftSquareBracket 7
  | _ => .leftParenthesis

mutual

/-- Structural equality of values, mirroring `PartialEq` on
`serde_json::Value` (numbers compare by stored representation, which the
`Value.ofInt` canonicalisation keeps aligned with serde). -/
def valueBeq : Value → Value → Bool
  | .null, .null => true
  | .bool a, .bool b => a == b
  | .numU a, .numU b => a == b
  | .numI a, .numI b => a == b
  | .numF a, .numF b => a == b
  | .str a, .str b => a == b
  | .arr a, .arr b => valueListBeq a b
  | .obj a, .obj b => objListBeq a b
  | _, _ => false

/-- Elementwise equality of array payloads. -/
def valueListBeq : ValueList → ValueList → Bool
  | .nil, .nil => true
  | .cons a as, .cons b bs => valueBeq a b && valueListBeq as bs
  | _, _ => false

/-- Entrywise equality of object payloads. -/
def objListBeq : ObjList → ObjList → Bool
  | .nil, .nil => true
  | .cons ka va as, .cons kb vb bs => ka == kb && valueBeq va vb && objListBeq as bs
  | _, _ => false

end

/-- Equality test on operators (`PartialEq` on `Operator`), used by the
builder to match closing brackets and commas. -/
def Operator.beqOp : Operator → Operator → Bool
  | .add p, .add q | .sub p, .sub q | .mul p, .mul q | .div p, .div q
  | .rem p, .rem q | .not p, .not q | .eq p, .eq q | .ne p, .ne q
  | .gt p, .gt q | .lt p, .lt q | .ge p, .ge q | .le p, .le q
  | .and p, .and q | .or p, .or q | .dot p, .dot q
  | .leftSquareBracket p, .leftSquareBracket q => p == q
  | .rightSquareBracket, .rightSquareBracket => true
  | .leftParenthesis, .leftParenthesis => true
  | .rightParenthesis, .rightParenthesis => true
  | .comma, .comma => true
  | .whiteSpace, .whiteSpace => true
  | .doubleQuotes, .doubleQuotes => true
  | .singleQuote, .singleQuote => true
  | .identifier a, .identifier b => a == b
  | .function a, .function b => a == b
  | .value a, .value b => valueBeq a b
  | _, _ => false

end Eval

namespace Eval

/-- Modelled from the spec: the host-facing `Function` record (spec
section 6): optional arity bounds and the callable body.  The body returns
through `RtError` so that built-ins written with internal `unwrap`s can be
embedded faithfully. -/
structure Function where
  max_args : Option Nat
  min_args : Option Nat
  compiled : List Value → Except RtError Value

/-- Modelled from the spec: a registry of named functions
(`HashMap<String, Function>`); association list with first-match lookup. -/
def Functions := List (String × Function)

/-- Registry lookup (`HashMap::get`). -/
def Functions.get? (fns : Functions) (name : String) : Option Function :=
  match fns with
  | [] => none
  | (k, f) :: tl => if k = name then some f else Functions.get? tl name

/-- Registry membership (`HashMap::contains_key`). -/
def Functions.containsKey (fns : Functions) (name : String) : Bool :=
  (fns.get? name).isSome

/-- Modelled from the spec: one variable context
(`HashMap<String, Value>`); association list with first-match lookup. -/
def Context := List (String × Value)

/-- Context lookup (`HashMap::get`). -/
def Context.get? (ctx : Context) (key : String) : Option Value :=
  match ctx with
  | [] => none
  | (k, v) :: tl => if k = key then some v else Context.get? tl key

/-- Inner loop of `find` in `src/tree/mod.rs`: first hit wins. -/
def findRev : List Context → String → Option Value
  | [], _ => none
  | c :: tl, key =>
      match c.get? key with
      | some v => some v
      | none => findRev tl key

/-- Variable lookup across the context stack (`find` in
`src/tree/mod.rs`): iterate the contexts in reverse (innermost context
last in the list), returning the first match. -/
def find (contexts : List Context) (key : String) : Option Value :=
  findRev contexts.reverse key

/-- AST node (`Node` in `src/node/mod.rs`): operator, ordered children,
and the `closed` flag. -/
inductive Node where
  | mk (operator : Operator) (children : List Node) (closed : Bool)

/-- Operator of a node. -/
def Node.operator : Node → Operator
  | .mk op _ _ => op

/-- Children of a node. -/
def Node.children : Node → List Node
  | .mk _ cs _ => cs

/-- The `closed` flag of a node. -/
def Node.closed : Node → Bool
  | .mk _ _ c => c

/-- Fresh node for an operator (`Node::new` / `Operator::to_node`). -/
def Operator.to_node (op : Operator) : Node := .mk op [] false

/-- Fresh node with the given children (`Operator::children_to_node`). -/
def Operator.children_to_node (op : Operator) (children : List Node) : Node :=
  .mk op children false

/-- Append a child (`Node::add_child`). -/
def Node.add_child : Node → Node → Node
  | .mk op cs closed, child => .mk op (cs ++ [child]) closed

/-- Set the `closed` flag. -/
def Node.close : Node → Node
  | .mk op cs _ => .mk op cs true

/-- Arity check against a resolved function
(`Node::check_function_args`): too many arguments fails with
`ArgumentsGreater`, too few with `ArgumentsLess`, each carrying the
declared limit. -/
def Node.check_function_args (node : Node) (f : Function) : Except RtError Unit :=
  let args_length := node.children.length
  match f.max_args with
  | some len =>
      if args_length > len then .error (.err (.argumentsGreater len))
      else
        match f.min_args with
        | some len2 =>
            if args_length < len2 then .error (.err (.argumentsLess len2)) else .ok ()
        | none => .ok ()
  | none =>
      match f.min_args with
      | some len2 =>
          if args_length < len2 then .error (.err (.argumentsLess len2)) else .ok ()
      | none => .ok ()

/-- True when the child count reached the operator's bounded maximum
(`Node::is_enough`). -/
def Node.is_enough (node : Node) : Bool :=
  match node.operator.get_max_args with
  | some value => node.children.length == value
  | none => false

/-- True when the node can serve as a complete left operand
(`Node::is_value_or_full_children`). -/
def Node.is_value_or_full_children (node : Node) : Bool :=
  if node.operator.is_value_or_ident then true
  else if node.operator.can_have_child then
    if node.closed then true else node.is_enough
  else false

/-- True for an unclosed child-bearing node
(`Node::is_unclosed_arithmetic`). -/
def Node.is_unclosed_arithmetic (node : Node) : Bool :=
  !node.closed && node.operator.can_have_child

/-- True for an unclosed function node (`Node::is_unclosed_function`). -/
def Node.is_unclosed_function (node : Node) : Bool :=
  match node.operator with
  | .function _ => !node.closed
  | _ => false

/-- True when the node's operator is a `LeftSquareBracket`
(`Node::is_left_square_bracket`). -/
def Node.is_left_square_bracket (node : Node) : Bool :=
  match node.operator with
  | .leftSquareBracket _ => true
  | _ => false

/-- True when the node's operator is a `Dot` (`Node::is_dot`). -/
def Node.is_dot (node : Node) : Bool :=
  node.operator.is_dot

end Eval

namespace Eval

/-- The cut-point characters of the position scan in
`Tree::parse_pos` (everything except the double quote, which toggles). -/
def isCutChar (c : Char) : Bool :=
  c = '(' || c = ')' || c = '+' || c = '-' || c = '*' || c = '/' || c = ',' ||
  c = ' ' || c = '!' || c = '=' || c = '>' || c = '<' || c = '\x27' ||
  c = '[' || c = ']' || c = '.' || c = '%' || c = '&' || c = '|'

/-- Character walk of `Tree::parse_pos`, emitting cut positions around
special characters and toggling the within-double-quote flag on `"`.
Positions are character indices (the sources index bytes; the two agree on
the ASCII expressions of interest). -/
def parse_pos_go : List Char → Nat → Bool → List Nat
  | [], _, _ => []
  | c :: tl, index, found_quote =>
      if c = '"' then
        index :: (index + 1) :: parse_pos_go tl (index + 1) (!found_quote)
      else if isCutChar c && !found_quote then
        index :: (index + 1) :: parse_pos_go tl (index + 1) found_quote
      else
        parse_pos_go tl (index + 1) found_quote

/-- Position scan (`Tree::parse_pos`): cut points plus the final length. -/
def parse_pos (chars : List Char) : List Nat :=
  parse_pos_go chars 0 false ++ [chars.length]

/-- Raw-token extraction loop of `Tree::parse_operators`: walk the cut
positions keeping a moving `start`/`end` window; `pos = 0` entries are
skipped.  Empty slices are kept (the tokenizer skips them itself). -/
def cutRaws : List Nat → Nat → List Char → List String
  | [], _, _ => []
  | pos :: tl, end_, chars =>
      if pos = 0 then cutRaws tl end_ chars
      else
        String.mk ((chars.drop end_).take (pos - end_)) :: cutRaws tl pos chars

/-- Tokenizer state of `Tree::parse_operators`: emitted operators, the
running parenthesis counter, the open quote kind, the `prev` raw token and
the pending number accumulator. -/
structure LexState where
  operators : List Operator
  parenthesis : Int
  quote : Option Operator
  prev : String
  number : String

/-- Initial tokenizer state. -/
def LexState.init : LexState :=
  { operators := [], parenthesis := 0, quote := none, prev := "", number := "" }

/-- One iteration of the tokenizer loop in `Tree::parse_operators`,
processing a single raw token. -/
def lexStep (st : LexState) (raw : String) : Except RtError LexState :=
  if raw.isEmpty then .ok st
  else
    let operator := Operator.from_str raw
    let isQuoteTok : Bool :=
      match operator with
      | .doubleQuotes | .singleQuote => true
      | _ => false
    let sameQuote : Bool :=
      match st.quote with
      | some q => q.beqOp operator
      | none => false
    if isQuoteTok && st.quote.isNone then
      .ok { st with quote := some operator, prev := "" }
    else if isQuoteTok && sameQuote then
      .ok { st with operators := st.operators ++ [.value (.str st.prev)],
                    prev := "", quote := none }
    else if st.quote.isSome then
      .ok { st with prev := st.prev ++ raw }
    else if (parse_number raw).isSome || operator.is_dot then
      .ok { st with number := st.number ++ raw }
    else
      let st :=
        if st.number ≠ "" then
          { st with operators := st.operators ++ [Operator.from_str st.number],
                    number := "" }
        else st
      if raw = "=" then
        if st.prev = "!" || st.prev = ">" || st.prev = "<" || st.prev = "=" then
          .ok { st with operators := st.operators ++ [Operator.from_str (st.prev ++ "=")],
                        prev := "" }
        else .ok { st with prev := raw }
      else if raw = "!" || raw = ">" || raw = "<" then
        if st.prev = "!" || st.prev = ">" || st.prev = "<" then
          .ok { st with operators := st.operators ++ [Operator.from_str st.prev],
                        prev := "" }
        else .ok { st with prev := raw }
      else
        let st :=
          if st.prev = "!" || st.prev = ">" || st.prev = "<" then
            { st with operators := st.operators ++ [Operator.from_str st.prev],
                      prev := "" }
          else st
        if (raw = "&" || raw = "|") && (st.prev = "&" || st.prev = "|") then
          if raw = st.prev then
            .ok { st with operators := st.operators ++ [Operator.from_str (st.prev ++ raw)],
                          prev := "" }
          else .error (.err (.unsupportedOperator st.prev))
        else if raw = "&" || raw = "|" then
          .ok { st with prev := raw }
        else
          match operator with
          | .leftParenthesis =>
              let st := { st with parenthesis := st.parenthesis + 1 }
              (match st.operators.getLast? with
                | some prevOperator =>
                    if prevOperator.is_identifier then
                      .ok { st with operators :=
                              st.operators.dropLast ++
                                [.function prevOperator.get_identifier, operator] }
                    else
                      .ok { st with operators := st.operators ++ [operator], prev := raw }
                | none =>
                    .ok { st with operators := st.operators ++ [operator], prev := raw })
          | .rightParenthesis =>
              .ok { st with parenthesis := st.parenthesis - 1,
                            operators := st.operators ++ [operator], prev := raw }
          | .whiteSpace => .ok st
          | _ => .ok { st with operators := st.operators ++ [operator], prev := raw }

/-- The tokenizer loop over all raw tokens. -/
def lexRun : LexState → List String → Except RtError LexState
  | st, [] => .ok st
  | st, raw :: tl =>
      match lexStep st raw with
      | .ok st2 => lexRun st2 tl
      | .error e => .error e

/-- End of the tokenizer (`Tree::parse_operators` epilogue): flush any
pending number, then fail with `UnpairedBrackets` when the parenthesis
counter is non-zero. -/
def lexFinish (st : LexState) : Except RtError (List Operator) :=
  let ops :=
    if st.number ≠ "" then st.operators ++ [Operator.from_str st.number]
    else st.operators
  if st.parenthesis ≠ 0 then .error (.err .unpairedBrackets) else .ok ops

/-- The whole tokenization pass (`Tree::parse_pos` followed by
`Tree::parse_operators`). -/
def parse_operators (raw : String) : Except RtError (List Operator) :=
  let chars := raw.toList
  let raws := cutRaws (parse_pos chars) 0 chars
  match lexRun LexState.init raws with
  | .ok st => lexFinish st
  | .error e => .error e

/-- Leftmost non-overlapping split on `..` (Rust `str::split("..")`),
written as structural recursion over the characters. -/
def splitOnDD : List Char → List Char → List (List Char)
  | [], acc => [acc.reverse]
  | '.' :: '.' :: tl, acc => acc.reverse :: splitOnDD tl []
  | c :: tl, acc => splitOnDD tl (acc ++ [c])

/-- Segments of the text around `..` occurrences. -/
def ddSegments (ident : String) : List String :=
  (splitOnDD ident.toList []).map String.mk

/-- Range-literal test (`is_range` in `src/tree/mod.rs`):
the text contains `..`. -/
def is_range (ident : String) : Bool :=
  (ddSegments ident).length != 1

/-- The integer sequence of `for n in start..end` (ascending, half-open). -/
def intRange (a b : Int) : List Int :=
  go (b - a).toNat a
where
  /-- Count down the remaining length while counting the value up. -/
  go : Nat → Int → List Int
  | 0, _ => []
  | n + 1, cur => cur :: go n (cur + 1)

/-- Range-literal parsing (`parse_range` in `src/tree/mod.rs`): split on
`..`, require exactly two segments, parse both as `i64`, and produce the
half-open integer array. -/
def parse_range (ident : String) : Except RtError Value :=
  match ddSegments ident with
  | [s1, s2] =>
      match parse_i64 s1, parse_i64 s2 with
      | some start, some end_ =>
          .ok (.arr (ValueList.ofList ((intRange start end_).map Value.ofInt)))
      | _, _ => .error (.err (.invalidRange ident))
  | _ => .error (.err (.invalidRange ident))

end Eval

namespace Eval

/-- True when the operator is a `LeftSquareBracket`
(`Operator::is_left_square_bracket`). -/
def Operator.is_left_square_bracket : Operator → Bool
  | .leftSquareBracket _ => true
  | _ => false

/-- The operators of the priority-carrying arm of `Tree::parse_node`. -/
def Operator.isPriorityOp : Operator → Bool
  | .add _ | .sub _ | .mul _ | .div _ | .not _ | .eq _ | .ne _ | .gt _ | .lt _
  | .ge _ | .and _ | .or _ | .le _ | .dot _ | .leftSquareBracket _ | .rem _ => true
  | _ => false

/-- The rob operation (`rob_to` in `src/tree/mod.rs`): detach the rightmost
child of `was_robed` and append it to `robber`; returns the pair in source
order.  Detaching from a childless node is a panic (`unwrap`). -/
def rob_to (was_robed robber : Node) : Except RtError (Node × Node) :=
  match was_robed.children.getLast? with
  | none => .error .panicked
  | some moved =>
      .ok (Node.mk was_robed.operator was_robed.children.dropLast was_robed.closed,
           robber.add_child moved)

/-- Value/identifier attachment (`append_value_to_last_node` in
`src/tree/mod.rs`).  The stack carries its top at the head. -/
def append_value_to_last_node (parsing_nodes : List Node) (operator : Operator) :
    Except RtError (List Node) :=
  let node := (operator.to_node).close
  match parsing_nodes with
  | [] => .ok [node]
  | prev :: rest =>
      if prev.is_dot then .ok (((prev.add_child node).close) :: rest)
      else if prev.is_left_square_bracket then .ok (node :: prev :: rest)
      else if prev.is_value_or_full_children then .error (.err .duplicateValueNode)
      else if prev.is_enough then .ok (node :: prev :: rest)
      else if prev.operator.can_have_child then .ok ((prev.add_child node) :: rest)
      else .error (.err .canNotAddChild)

/-- Final stack collapse loop (`get_final_node` in `src/tree/mod.rs`);
the fuel counts loop iterations and is set to the stack length, which the
length decrease of each iteration makes sufficient. -/
def get_final_go : Nat → List Node → Except RtError Node
  | _, [n] => .ok n
  | _, [] => .error (.err .noFinalNode)
  | 0, _ => .error .fuelOut
  | fuel + 1, last :: prev :: rest =>
      if prev.operator.can_have_child then get_final_go fuel ((prev.add_child last) :: rest)
      else .error (.err .canNotAddChild)

/-- Final stack collapse (`get_final_node` in `src/tree/mod.rs`). -/
def get_final_node (parsing_nodes : List Node) : Except RtError Node :=
  if parsing_nodes.isEmpty then .error (.err .noFinalNode)
  else get_final_go parsing_nodes.length parsing_nodes

/-- Bracket-closing loop (`close_bracket` in `src/tree/mod.rs`); popping
from a stack with fewer than two nodes is a panic.  The fuel counts loop
iterations; each continuing iteration shrinks the stack by one. -/
def close_bracket_go : Nat → List Node → Operator → Except RtError (List Node)
  | 0, _, _ => .error .fuelOut
  | fuel + 1, stack, bracket =>
      match stack with
      | current :: prev :: rest =>
          if current.operator.is_left_square_bracket then
            .error (.err .bracketNotWithFunction)
          else if prev.operator.is_left_square_bracket then
            .ok (((prev.add_child current).close) :: rest)
          else if current.operator.beqOp bracket then
            if prev.is_unclosed_function then .ok (prev.close :: rest)
            else .error (.err .bracketNotWithFunction)
          else if prev.operator.beqOp bracket then
            let current := if !current.closed then current.close else current
            match rest with
            | p :: rest2 =>
                if p.is_unclosed_function then .ok (((p.close).add_child current) :: rest2)
                else if p.is_unclosed_arithmetic then .ok ((p.add_child current) :: rest2)
                else .ok (current :: p :: rest2)
            | [] => .ok [current]
          else if !prev.closed then
            let prev := prev.add_child current
            let prev := if prev.is_enough then prev.close else prev
            if rest.isEmpty then .error (.err .startWithNonValueOperator)
            else close_bracket_go fuel (prev :: rest) bracket
          else .error (.err .startWithNonValueOperator)
      | _ => .error .panicked

/-- Bracket closing (`close_bracket` in `src/tree/mod.rs`). -/
def close_bracket (parsing_nodes : List Node) (bracket : Operator) :
    Except RtError (List Node) :=
  close_bracket_go (parsing_nodes.length + 1) parsing_nodes bracket

/-- Comma-resolution loop (`close_comma` in `src/tree/mod.rs`). -/
def close_comma_go : Nat → List Node → Except RtError (List Node)
  | 0, _ => .error .fuelOut
  | fuel + 1, stack =>
      match stack with
      | current :: prev :: rest =>
          if current.operator.beqOp .comma then .ok (prev :: rest)
          else if current.operator.is_left then .ok (current :: prev :: rest)
          else if prev.operator.is_left then
            match rest with
            | p :: rest2 =>
                if p.is_unclosed_function then
                  .ok (prev :: (p.add_child current) :: rest2)
                else .error (.err .commaNotWithFunction)
            | [] => .error (.err .commaNotWithFunction)
          else if !prev.closed then
            let prev := prev.add_child current
            let prev := if prev.is_enough then prev.close else prev
            if rest.isEmpty then .error (.err .startWithNonValueOperator)
            else close_comma_go fuel (prev :: rest)
          else .error (.err .startWithNonValueOperator)
      | _ => .error .panicked

/-- Comma resolution (`close_comma` in `src/tree/mod.rs`): fails up front
on a stack with fewer than two nodes. -/
def close_comma (parsing_nodes : List Node) : Except RtError (List Node) :=
  if parsing_nodes.length < 2 then .error (.err .commaNotWithFunction)
  else close_comma_go (parsing_nodes.length + 1) parsing_nodes

/-- One iteration of the builder loop in `Tree::parse_node`, dispatching a
single incoming operator against the stack (top at the head). -/
def parse_step (parsing_nodes : List Node) (operator : Operator) :
    Except RtError (List Node) :=
  if operator.isPriorityOp then
    let priority := operator.get_priority
    match parsing_nodes with
    | prev :: rest =>
        if prev.is_value_or_full_children then
          if prev.operator.get_priority < priority && !prev.closed then
            match rob_to prev operator.to_node with
            | .ok (robbed, robber) => .ok (robber :: robbed :: rest)
            | .error e => .error e
          else .ok (operator.children_to_node [prev] :: rest)
        else if prev.operator.can_at_beginning then
          .ok (operator.to_node :: prev :: rest)
        else .error (.err .duplicateOperatorNode)
    | [] =>
        if operator.can_at_beginning then .ok [operator.to_node]
        else .error (.err .startWithNonValueOperator)
  else
    match operator with
    | .function _ | .leftParenthesis => .ok (operator.to_node :: parsing_nodes)
    | .comma => close_comma parsing_nodes
    | .rightParenthesis | .rightSquareBracket =>
        close_bracket parsing_nodes operator.get_left
    | .value _ | .identifier _ => append_value_to_last_node parsing_nodes operator
    | _ => .ok parsing_nodes

/-- The builder loop over the whole operator stream. -/
def run_parse : List Node → List Operator → Except RtError (List Node)
  | stack, [] => .ok stack
  | stack, op :: tl =>
      match parse_step stack op with
      | .ok stack2 => run_parse stack2 tl
      | .error e => .error e

/-- Tree building (`Tree::parse_node`): fold the builder step over the
operator stream starting from the empty stack, then collapse. -/
def parse_node (operators : List Operator) : Except RtError Node :=
  match run_parse [] operators with
  | .ok stack => get_final_node stack
  | .error e => .error e

/-- The compile pipeline up to the tree (`Tree::compile` before the
evaluator closure is formed): position scan, tokenization, tree build. -/
def compileTree (raw : String) : Except RtError Node :=
  match parse_operators raw with
  | .ok ops => parse_node ops
  | .error e => .error e

end Eval

namespace Eval

/-- Signed numeric reading of an integer-tagged number. -/
def Value.asIntNum : Value → Option Int
  | .numU n => some (n : Int)
  | .numI i => some i
  | _ => none

/-- True for a float-tagged number. -/
def Value.isFloat : Value → Bool
  | .numF _ => true
  | _ => false

/-- Minimal stringification used by string concatenation in `add`. -/
def valueToString : Value → String
  | .null => "null"
  | .bool true => "true"
  | .bool false => "false"
  | .numU n => toString n
  | .numI i => toString i
  | .numF t => t
  | .str s => s
  | .arr _ => "[array]"
  | .obj _ => "[object]"

/-- Modelled from the spec: `add` of the missing `math` module (spec
section 4.1): numeric addition when both sides are numeric, string
concatenation of the stringified forms when either side is a string;
array/object participation fails.  Float arithmetic is outside the scope
of this development (spec section 1) and is mapped to an error; no
verified claim exercises it. -/
def valueAdd (a b : Value) : Except RtError Value :=
  if a.isString || b.isString then .ok (.str (valueToString a ++ valueToString b))
  else
    match a.asIntNum, b.asIntNum with
    | some x, some y => .ok (Value.ofInt (x + y))
    | _, _ =>
        if a.isFloat || b.isFloat then
          .error (.err (.custom "float arithmetic not modelled"))
        else .error (.err (.custom "invalid operation"))

/-- Modelled from the spec: the numeric-only binary operations `sub`,
`mul`, `div`, `rem` of the missing `math` module (spec section 4.1),
parameterised by the integer operation; division/remainder by zero fails
with the dedicated message. -/
def valueNumBin (op : Int → Int → Int) (zeroCheck : Bool) (a b : Value) :
    Except RtError Value :=
  match a.asIntNum, b.asIntNum with
  | some x, some y =>
      if zeroCheck && y = 0 then .error (.err (.custom "divide by zero"))
      else .ok (Value.ofInt (op x y))
  | _, _ =>
      if a.isFloat || b.isFloat then
        .error (.err (.custom "float arithmetic not modelled"))
      else .error (.err (.custom "invalid operation"))

mutual

/-- Modelled from the spec: deep equality with numeric subtypes compared
by numeric value (spec section 4.1); incompatible kinds compare unequal,
never erring.  Float payloads compare by literal text (unexercised). -/
def valueEqDeep : Value → Value → Bool
  | .null, .null => true
  | .bool a, .bool b => a == b
  | .numF a, .numF b => a == b
  | .str a, .str b => a == b
  | .arr a, .arr b => valueListEqDeep a b
  | .obj a, .obj b => objListEqDeep a b
  | .numU a, .numU b => a == b
  | .numU a, .numI b => (a : Int) == b
  | .numI a, .numU b => a == (b : Int)
  | .numI a, .numI b => a == b
  | _, _ => false

/-- Elementwise deep equality of array payloads. -/
def valueListEqDeep : ValueList → ValueList → Bool
  | .nil, .nil => true
  | .cons a as, .cons b bs => valueEqDeep a b && valueListEqDeep as bs
  | _, _ => false

/-- Entrywise deep equality of object payloads. -/
def objListEqDeep : ObjList → ObjList → Bool
  | .nil, .nil => true
  | .cons ka va as, .cons kb vb bs =>
      ka == kb && valueEqDeep va vb && objListEqDeep as bs
  | _, _ => false

end

/-- Modelled from the spec: `Math::eq` — total deep equality. -/
def mathEq (a b : Value) : Except RtError Value :=
  .ok (.bool (valueEqDeep a b))

/-- Modelled from the spec: `Math::ne` — negated deep equality. -/
def mathNe (a b : Value) : Except RtError Value :=
  .ok (.bool (!valueEqDeep a b))

/-- Modelled from the spec: the ordering comparisons of the missing `math`
module (spec section 4.1), parameterised by the integer and string tests:
defined for numbers and for strings (lexicographic), failing elsewhere. -/
def valueCmp (intTest : Int → Int → Bool) (strTest : String → String → Bool)
    (a b : Value) : Except RtError Value :=
  match a.asIntNum, b.asIntNum with
  | some x, some y => .ok (.bool (intTest x y))
  | _, _ =>
      match a, b with
      | .str x, .str y => .ok (.bool (strTest x y))
      | _, _ =>
          if a.isFloat || b.isFloat then
            .error (.err (.custom "float comparison not modelled"))
          else .error (.err .expectedNumber)

/-- Strict greater-than (`Math`/`Value::gt`). -/
def valueGt : Value → Value → Except RtError Value :=
  valueCmp (fun x y => x > y) (fun x y => decide (y < x))

/-- Strict less-than (`Math`/`Value::lt`). -/
def valueLt : Value → Value → Except RtError Value :=
  valueCmp (fun x y => x < y) (fun x y => decide (x < y))

/-- Greater-or-equal (`Math`/`Value::ge`). -/
def valueGe : Value → Value → Except RtError Value :=
  valueCmp (fun x y => x ≥ y) (fun x y => decide (¬x < y))

/-- Less-or-equal (`Math`/`Value::le`). -/
def valueLe : Value → Value → Except RtError Value :=
  valueCmp (fun x y => x ≤ y) (fun x y => decide (¬y < x))

/-- Modelled from the spec: strict boolean conjunction of the missing
`math` module; both operands must be booleans. -/
def valueAnd (a b : Value) : Except RtError Value :=
  match a, b with
  | .bool x, .bool y => .ok (.bool (x && y))
  | .bool _, other => .error (.err (.expectedBoolean other))
  | other, _ => .error (.err (.expectedBoolean other))

/-- Modelled from the spec: strict boolean disjunction of the missing
`math` module; both operands must be booleans. -/
def valueOr (a b : Value) : Except RtError Value :=
  match a, b with
  | .bool x, .bool y => .ok (.bool (x || y))
  | .bool _, other => .error (.err (.expectedBoolean other))
  | other, _ => .error (.err (.expectedBoolean other))

end Eval

namespace Eval

/-- One selection step of the `compare` loop in `src/builtin/mod.rs`: when
a candidate is already selected, keep the smaller (for min) or larger (for
max) of candidate and the new value, propagating comparison errors; before
any selection, the new value becomes the candidate. -/
def cmpSelect (isMin : Bool) (prev : Except RtError Value) (value : Value) :
    Except RtError (Except RtError Value) :=
  match prev with
  | .ok p =>
      match (if isMin then valueLt value p else valueGt value p) with
      | .ok c => if valueBeq c (.bool true) then .ok (.ok value) else .ok (.ok p)
      | .error e => .error e
  | .error _ => .ok (.ok value)

/-- Inner loop of `compare` over the elements of an array argument. -/
def cmpArrLoop (isMin : Bool) : Except RtError Value → ValueList →
    Except RtError (Except RtError Value)
  | prev, .nil => .ok prev
  | prev, .cons v tl =>
      match cmpSelect isMin prev v with
      | .ok prev2 => cmpArrLoop isMin prev2 tl
      | .error e => .error e

/-- Outer loop of `compare` over the argument list, flattening one level
of array arguments. -/
def cmpLoop (isMin : Bool) : Except RtError Value → List Value →
    Except RtError (Except RtError Value)
  | prev, [] => .ok prev
  | prev, value :: tl =>
      match value with
      | .arr elems =>
          match cmpArrLoop isMin prev elems with
          | .ok prev2 => cmpLoop isMin prev2 tl
          | .error e => .error e
      | _ =>
          match cmpSelect isMin prev value with
          | .ok prev2 => cmpLoop isMin prev2 tl
          | .error e => .error e

/-- The shared min/max builder (`compare` in `src/builtin/mod.rs`): the
accumulator starts as the error `Custom("can\x27t find min value.")` for
both directions, so a run that never selects a candidate returns exactly
that error. -/
def compare (isMin : Bool) : Function :=
  { max_args := none,
    min_args := some 1,
    compiled := fun values =>
      match cmpLoop isMin (.error (.err (.custom "can\x27t find min value."))) values with
      | .ok prev => prev
      | .error e => .error e }

/-- The `min` built-in (`create_min_function`). -/
def create_min_function : Function := compare true

/-- The `max` built-in (`create_max_function`). -/
def create_max_function : Function := compare false

/-- The `len` built-in (`create_len_function`); string length is measured
in characters here versus bytes in the source, which agree on ASCII (the
formatted argument of the error message is omitted). -/
def create_len_function : Function :=
  { max_args := some 1,
    min_args := some 1,
    compiled := fun values =>
      match values.head? with
      | none => .error .panicked
      | some value =>
          match value with
          | .str s => .ok (.numU s.length)
          | .arr a => .ok (.numU a.length)
          | .obj o => .ok (.numU o.length)
          | .null => .ok (.numU 0)
          | _ => .error (.err (.custom "len() only accept string, array, object and null.")) }

/-- The `is_empty` built-in (`create_is_empty_function`). -/
def create_is_empty_function : Function :=
  { max_args := some 1,
    min_args := some 1,
    compiled := fun values =>
      match values.head? with
      | none => .error .panicked
      | some value =>
          match value with
          | .str s => .ok (.bool s.isEmpty)
          | .arr a => .ok (.bool a.isEmpty)
          | .obj o => .ok (.bool o.isEmpty)
          | .null => .ok (.bool true)
          | _ => .ok (.bool false) }

/-- The `array` built-in (`create_array_function`): packs the arguments
into an array; no arity bounds (`Function::new`). -/
def create_array_function : Function :=
  { max_args := none,
    min_args := none,
    compiled := fun values => .ok (.arr (ValueList.ofList values)) }

/-- The built-in registry (`BuiltIn::create_builtins`), in insertion
order. -/
def create_builtins : Functions :=
  [("min", create_min_function),
   ("max", create_max_function),
   ("len", create_len_function),
   ("is_empty", create_is_empty_function),
   ("array", create_array_function)]

end Eval

namespace Eval

/-- The argument-evaluation loop of the `Function` arm of `exec_node`:
evaluate every child in order, stopping at the first error. -/
def execArgsGo (evalc : Node → Except RtError Value) :
    List Node → List Value → Except RtError (List Value)
  | [], acc => .ok acc
  | c :: tl, acc =>
      match evalc c with
      | .ok v => execArgsGo evalc tl (acc ++ [v])
      | .error e => .error e

/-- Left-to-right evaluation of a function's argument subtrees. -/
def execArgs (evalc : Node → Except RtError Value) (children : List Node) :
    Except RtError (List Value) :=
  execArgsGo evalc children []

/-- The child loop of the `Dot` arm of `exec_node`.  While no value is
selected, the next child is evaluated: a string is looked up in the
contexts (a miss returns `Null` for the whole chain), an object is used
directly, null returns `Null`, anything else is `ExpectedObject`.  With a
value selected, the next child must be an `Identifier` operator and
indexes by name; a missing member leaves the selection empty again.  An
empty selection at the end returns `Null`. -/
def dotLoop (evalc : Node → Except RtError Value) (contexts : List Context) :
    Option Value → List Node → Except RtError Value
  | value, [] =>
      match value with
      | some v => .ok v
      | none => .ok .null
  | none, child :: tl =>
      match evalc child with
      | .error e => .error e
      | .ok name =>
          if name.isString then
            match find contexts name.getStr with
            | none => .ok .null
            | some v => dotLoop evalc contexts (some v) tl
          else if name.isObject then dotLoop evalc contexts (some name) tl
          else if name.isNull then .ok .null
          else .error (.err .expectedObject)
  | some v, child :: tl =>
      if child.operator.is_identifier then
        dotLoop evalc contexts (v.get? child.operator.get_identifier) tl
      else .error (.err .expectedIdentifier)

/-- The child loop of the `LeftSquareBracket` arm of `exec_node`.  Every
child is evaluated.  While no value is selected: a string is looked up in
the contexts (a miss returns `Null`), arrays and objects are used as-is,
null returns `Null`, anything else is `ExpectedArray`.  With a value
selected: against an object the child must evaluate to a string key,
against an array to a `u64` index (an out-of-bounds index empties the
selection).  An empty selection at the end returns `Null`. -/
def idxLoop (evalc : Node → Except RtError Value) (contexts : List Context) :
    Option Value → List Node → Except RtError Value
  | value, [] =>
      match value with
      | some v => .ok v
      | none => .ok .null
  | value, child :: tl =>
      match evalc child with
      | .error e => .error e
      | .ok name =>
          match value with
          | none =>
              if name.isString then
                match find contexts name.getStr with
                | none => .ok .null
                | some v => idxLoop evalc contexts (some v) tl
              else if name.isArray || name.isObject then
                idxLoop evalc contexts (some name) tl
              else if name.isNull then .ok .null
              else .error (.err .expectedArray)
          | some v =>
              if v.isObject then
                if name.isString then idxLoop evalc contexts (v.get? name.getStr) tl
                else .error (.err .expectedIdentifier)
              else if name.isU64 then
                if v.isArray then idxLoop evalc contexts (v.arrGet? name.getU64) tl
                else .error (.err .expectedArray)
              else .error (.err .expectedNumber)

/-- The recursive evaluator (`exec_node` in `Tree::compile`), embedded
with an explicit recursion-depth budget (`fuel`); the Rust recursion is
structural on the tree, so any budget at least the tree height gives the
source behaviour, and every theorem below quantifies over or instantiates
the budget explicitly.  Parameters follow the source order: builtins,
contexts, caller functions, const functions. -/
def exec_node : Nat → Node → Functions → List Context → Functions → Functions →
    Except RtError Value
  | 0, _, _, _, _, _ => .error .fuelOut
  | fuel + 1, node, builtin, contexts, functions, const_functions =>
      let evalc : Node → Except RtError Value := fun c =>
        exec_node fuel c builtin contexts functions const_functions
      let binop (f : Value → Value → Except RtError Value) : Except RtError Value :=
        match node.children.head? with
        | none => .error .panicked
        | some first =>
            match evalc first with
            | .error e => .error e
            | .ok l =>
                match node.children.getLast? with
                | none => .error .panicked
                | some last =>
                    match evalc last with
                    | .error e => .error e
                    | .ok r => f l r
      match node.operator with
      | .add _ => binop valueAdd
      | .mul _ => binop (valueNumBin (fun x y => x * y) false)
      | .sub _ => binop (valueNumBin (fun x y => x - y) false)
      | .div _ => binop (valueNumBin Int.tdiv true)
      | .rem _ => binop (valueNumBin Int.tmod true)
      | .eq _ => binop mathEq
      | .ne _ => binop mathNe
      | .gt _ => binop valueGt
      | .lt _ => binop valueLt
      | .ge _ => binop valueGe
      | .le _ => binop valueLe
      | .and _ => binop valueAnd
      | .or _ => binop valueOr
      | .function ident =>
          let function_option :=
            if functions.containsKey ident then functions.get? ident
            else builtin.get? ident
          (match execArgs evalc node.children with
            | .error e => .error e
            | .ok values =>
                match function_option with
                | some fo =>
                    match node.check_function_args fo with
                    | .error e => .error e
                    | .ok _ => fo.compiled values
                | none =>
                    match const_functions.get? ident with
                    | some f => f.compiled values
                    | none => .error (.err (.functionNotExists ident)))
      | .value v => .ok v
      | .not _ =>
          (match node.children.head? with
            | none => .error .panicked
            | some first =>
                match evalc first with
                | .error e => .error e
                | .ok value =>
                    match value with
                    | .bool b => .ok (.bool (!b))
                    | .null => .ok (.bool true)
                    | _ => .error (.err (.expectedBoolean value)))
      | .dot _ => dotLoop evalc contexts none node.children
      | .leftSquareBracket _ => idxLoop evalc contexts none node.children
      | .identifier ident =>
          (match parse_number ident with
            | some n => .ok n
            | none =>
                if is_range ident then parse_range ident
                else
                  match find contexts ident with
                  | some value => .ok value
                  | none => .ok .null)
      | op => .error (.err (.canNotExec op))

/-- The whole pipeline (`Tree::compile` followed by calling the compiled
closure): lex, build the tree, evaluate with the built-in registry and the
given evaluation budget. -/
def evalStringF (fuel : Nat) (raw : String) (contexts : List Context)
    (functions const_functions : Functions) : Except RtError Value :=
  match compileTree raw with
  | .ok node => exec_node fuel node create_builtins contexts functions const_functions
  | .error e => .error e

end Eval

namespace Eval

/-- A closed identifier leaf, as `append_value_to_last_node` produces. -/
def identNode (s : String) : Node := .mk (.identifier s) [] true

/-- A closed value leaf, as `append_value_to_last_node` produces. -/
def valueNode (v : Value) : Node := .mk (.value v) [] true

/-- The two-segment member chain `h.s` exactly as the tree builder shapes
it: a closed `Dot` node with two closed identifier leaves. -/
def dotBase (h s : String) : Node := .mk (.dot 7) [identNode h, identNode s] true

/-- One more `.s` segment around an existing chain, exactly as the tree
builder shapes it. -/
def dotExtend (n : Node) (s : String) : Node := .mk (.dot 7) [n, identNode s] true

/-- The member chain `h.s.r₁.r₂…` as shaped by the tree builder. -/
def chainNode (h s : String) (rest : List String) : Node :=
  rest.foldl dotExtend (dotBase h s)

/-- The selection loop of the min/max built-in leaves the accumulator
untouched when every argument is an empty array. -/
theorem cmpLoop_empty_arrays (isMin : Bool) (e : RtError) :
    ∀ values : List Value, (∀ v ∈ values, v = Value.arr .nil) →
    cmpLoop isMin (.error e) values = .ok (.error e) := by
  intro values h
  induction values with
  | nil => rfl
  | cons v tl ih =>
      have hv := h v (by simp)
      subst hv
      simpa [cmpLoop, cmpArrLoop] using ih (fun w hw => h w (by simp [hw]))

/-- C10 (confirmed): for both the `min` and the `max` built-in, a call in
which no candidate value is ever selected — every argument an empty array
— fails with `Custom("can\x27t find min value.")`; the `max` built-in
produces this same min-phrased message. -/
theorem c10_min_max_no_candidate (values : List Value)
    (h : ∀ v ∈ values, v = Value.arr .nil) :
    create_min_function.compiled values =
      .error (.err (.custom "can\x27t find min value.")) ∧
    create_max_function.compiled values =
      .error (.err (.custom "can\x27t find min value.")) := by
  constructor <;>
    simp [create_min_function, create_max_function, compare,
          cmpLoop_empty_arrays _ _ _ h]

/-- Witness for C10 at the concrete input `max([])` / `min([])`. -/
theorem c10_min_max_no_candidate_witness :
    create_min_function.compiled [Value.arr .nil] =
      .error (.err (.custom "can\x27t find min value.")) ∧
    create_max_function.compiled [Value.arr .nil] =
      .error (.err (.custom "can\x27t find min value.")) :=
  c10_min_max_no_candidate [Value.arr .nil] (by intro v hv; simpa using hv)

end Eval

namespace Eval

/-- Contexts that miss the key are skipped by the lookup loop. -/
theorem findRev_append_miss (key : String) (l1 l2 : List Context)
    (h : ∀ c ∈ l1, c.get? key = none) :
    findRev (l1 ++ l2) key = findRev l2 key := by
  induction l1 with
  | nil => rfl
  | cons c tl ih =>
      have hc := h c (by simp)
      simpa [findRev, hc] using ih (fun w hw => h w (by simp [hw]))

/-- C2 (amended): for a key that is not readable as a number and is not a
range literal, evaluating the identifier returns the value bound in the
innermost context containing the key — the lookup walks the context stack
(innermost last) from innermost outward and returns the first match.  (The
unamended claim fails for numeric keys; see the counterexample.) -/
theorem c2_innermost_lookup (fuel : Nat) (builtin fns consts : Functions)
    (outer : List Context) (c : Context) (inner : List Context)
    (k : String) (v : Value)
    (hnum : parse_number k = none) (hrng : is_range k = false)
    (hc : c.get? k = some v) (hinner : ∀ c2 ∈ inner, c2.get? k = none) :
    exec_node (fuel + 1) (identNode k) builtin (outer ++ c :: inner) fns consts =
      .ok v := by
  have hfind : find (outer ++ c :: inner) k = some v := by
    unfold find
    rw [List.reverse_append, List.reverse_cons, List.append_assoc]
    rw [findRev_append_miss k inner.reverse ([c] ++ outer.reverse)
          (fun w hw => hinner w (List.mem_reverse.mp hw))]
    simp [findRev, hc]
  simp [identNode, exec_node, Node.operator, hnum, hrng, hfind]

/-- Witness for C2 at a concrete shadowed key. -/
theorem c2_innermost_lookup_witness :
    exec_node 1 (identNode "k") []
      [[("k", .str "outer")], [("k", .str "inner")]] [] [] = .ok (.str "inner") :=
  c2_innermost_lookup 0 [] [] [] [[("k", .str "outer")]] [("k", .str "inner")] []
    "k" (.str "inner") rfl rfl rfl (by intro c2 hc2; simp at hc2)

/-- C2 counterexample: the unamended claim fails for a key whose text
parses as a number — with `"2"` bound in both contexts, evaluation returns
the number `2`, not the innermost binding. -/
theorem c2_counterexample :
    exec_node 1 (identNode "2") []
      [[("2", .str "outer")], [("2", .str "inner")]] [] [] = .ok (.numU 2) ∧
    (Except.ok (Value.numU 2) : Except RtError Value) ≠ .ok (.str "inner") := by
  refine ⟨rfl, ?_⟩
  intro h
  injection h with h2
  exact Value.noConfusion h2

end Eval

namespace Eval

/-- The loop of `intRange` enumerates `a, a+1, …` for the requested
length. -/
theorem intRange_go_spec (n : Nat) : ∀ a : Int,
    intRange.go n a = (List.range n).map (fun i => a + Int.ofNat i) := by
  induction n with
  | zero => intro a; rfl
  | succ m ih =>
      intro a
      rw [List.range_succ_eq_map]
      simp only [intRange.go, List.map_cons, List.map_map, ih (a + 1)]
      refine List.cons_eq_cons.mpr ⟨by simp, ?_⟩
      apply List.map_congr_left
      intro i _
      simp only [Function.comp_apply, Int.ofNat_eq_natCast, Nat.succ_eq_add_one]
      push_cast
      ring

/-- The half-open enumeration `[a, a+1, …, b-1]` of `for n in a..b`. -/
theorem intRange_spec (a b : Int) :
    intRange a b = (List.range (b - a).toNat).map (fun i => a + Int.ofNat i) :=
  intRange_go_spec _ a

end Eval

namespace Eval

/-- C5 (confirmed): identifier evaluation first tries to read the text as
a number — `u64`, then `i64`, then `f64` — and returns the numeric value;
otherwise, a text containing `..` is parsed as a range literal `a..b` with
`i64` endpoints yielding the half-open integer array `[a, …, b-1]` and
failing with `InvalidRange` when malformed; otherwise the text is looked
up in the contexts, with `Null` for an unresolved name. -/
theorem c5_identifier_eval (fuel : Nat) (builtin fns consts : Functions)
    (contexts : List Context) (ident : String) :
    (∀ v, parse_number ident = some v →
      exec_node (fuel + 1) (identNode ident) builtin contexts fns consts = .ok v) ∧
    (parse_number ident = none → is_range ident = true →
      exec_node (fuel + 1) (identNode ident) builtin contexts fns consts =
        parse_range ident) ∧
    (parse_number ident = none → is_range ident = false →
      exec_node (fuel + 1) (identNode ident) builtin contexts fns consts =
        match find contexts ident with
        | some v => .ok v
        | none => .ok .null) ∧
    (∀ n, parse_u64 ident = some n → parse_number ident = some (.numU n)) ∧
    (parse_u64 ident = none → ∀ i, parse_i64 ident = some i →
      parse_number ident = some (Value.ofInt i)) ∧
    (parse_u64 ident = none → parse_i64 ident = none → parse_f64_ok ident = true →
      parse_number ident = some (.numF ident)) ∧
    (parse_u64 ident = none → parse_i64 ident = none → parse_f64_ok ident = false →
      parse_number ident = none) ∧
    (∀ s1 s2 a b, ddSegments ident = [s1, s2] → parse_i64 s1 = some a →
      parse_i64 s2 = some b →
      parse_range ident =
        .ok (.arr (ValueList.ofList ((intRange a b).map Value.ofInt)))) ∧
    (∀ s1 s2, ddSegments ident = [s1, s2] →
      parse_i64 s1 = none ∨ parse_i64 s2 = none →
      parse_range ident = .error (.err (.invalidRange ident))) ∧
    (∀ a b : Int, intRange a b =
      (List.range (b - a).toNat).map (fun i => a + Int.ofNat i)) := by
  refine ⟨?_, ?_, ?_, ?_, ?_, ?_, ?_, ?_, ?_, fun a b => intRange_spec a b⟩
  · intro v hv
    simp [identNode, exec_node, Node.operator, hv]
  · intro hnum hrng
    simp [identNode, exec_node, Node.operator, hnum, hrng]
  · intro hnum hrng
    simp [identNode, exec_node, Node.operator, hnum, hrng]
  · intro n hn
    simp [parse_number, hn]
  · intro hu i hi
    simp [parse_number, hu, hi]
  · intro hu hi hf
    simp [parse_number, hu, hi, hf]
  · intro hu hi hf
    simp [parse_number, hu, hi, hf]
  · intro s1 s2 a b hseg h1 h2
    simp [parse_range, hseg, h1, h2]
  · intro s1 s2 hseg hbad
    rcases hbad with h1 | h2
    · cases hp2 : parse_i64 s2 <;> simp [parse_range, hseg, h1, hp2]
    · cases hp1 : parse_i64 s1 <;> simp [parse_range, hseg, hp1, h2]

/-- Witness for C5 at concrete identifiers: a `u64` literal, a range
literal and a context lookup. -/
theorem c5_identifier_eval_witness :
    exec_node 1 (identNode "7") [] [] [] [] = .ok (.numU 7) ∧
    exec_node 1 (identNode "2..5") [] [] [] [] = parse_range "2..5" ∧
    exec_node 1 (identNode "name") [] [[("name", .bool true)]] [] [] =
      .ok (.bool true) ∧
    parse_range "2..5" =
      .ok (.arr (ValueList.ofList ([(2 : Int), 3, 4].map Value.ofInt))) :=
  ⟨(c5_identifier_eval 0 [] [] [] [] "7").1 _ rfl,
   (c5_identifier_eval 0 [] [] [] [] "2..5").2.1 rfl rfl,
   ((c5_identifier_eval 0 [] [] [] [[("name", .bool true)]] "name").2.2.1 rfl rfl).trans rfl,
   ((c5_identifier_eval 0 [] [] [] [] "2..5").2.2.2.2.2.2.2.1 "2" "5" 2 5 rfl rfl rfl).trans rfl⟩

end Eval

namespace Eval

/-- The argument loop stops at the first failing argument, whatever was
accumulated so far. -/
theorem execArgsGo_error_after_prefix (evalc : Node → Except RtError Value)
    (e : RtError) : ∀ (pre : List Node) (acc : List Value) (vs : List Value)
    (bad : Node) (rest : List Node),
    execArgsGo evalc pre acc = .ok vs → evalc bad = .error e →
    execArgsGo evalc (pre ++ bad :: rest) acc = .error e := by
  intro pre
  induction pre with
  | nil =>
      intro acc vs bad rest _ hbad
      simp [execArgsGo, hbad]
  | cons c tl ih =>
      intro acc vs bad rest h hbad
      cases hc : evalc c with
      | error e2 => rw [execArgsGo, hc] at h; cases h
      | ok v =>
          rw [execArgsGo, hc] at h
          rw [List.cons_append, execArgsGo, hc]
          exact ih _ _ _ _ h hbad

/-- C9 (confirmed): in the `Function` arm all argument subtrees are
evaluated, left to right, before the arity check and before an unknown
name is reported: a failing argument's error is the result whatever the
registries contain (even when the name is bound nowhere), and the first
failing argument's error wins. -/
theorem c9_args_before_resolution (fuel : Nat) (builtin fns consts : Functions)
    (contexts : List Context) (name : String) (children : List Node)
    (closed : Bool) (e : RtError) :
    (execArgs (fun c => exec_node fuel c builtin contexts fns consts) children =
        .error e →
      exec_node (fuel + 1) (Node.mk (.function name) children closed)
        builtin contexts fns consts = .error e) ∧
    (∀ (evalc : Node → Except RtError Value) (pre : List Node) (vs : List Value)
        (bad : Node) (rest : List Node),
      execArgs evalc pre = .ok vs → evalc bad = .error e →
      execArgs evalc (pre ++ bad :: rest) = .error e) := by
  constructor
  · intro h
    simp [exec_node, Node.operator, Node.children, h]
  · intro evalc pre vs bad rest h hbad
    exact execArgsGo_error_after_prefix evalc e pre [] vs bad rest h hbad

/-- Witness for C9: the unknown function name `nope` applied to a failing
argument (`!3`, not a boolean) reports the argument's error, not
`FunctionNotExists`. -/
theorem c9_args_before_resolution_witness :
    exec_node 3 (Node.mk (.function "nope")
        [Node.mk (.not 6) [valueNode (.numU 3)] false] false)
      create_builtins [] [] [] = .error (.err (.expectedBoolean (.numU 3))) :=
  (c9_args_before_resolution 2 create_builtins [] [] [] "nope"
      [Node.mk (.not 6) [valueNode (.numU 3)] false] false
      (.err (.expectedBoolean (.numU 3)))).1 rfl

end Eval

namespace Eval

/-- C1 (amended): a `Function(name)` node resolves `name` against the
caller-supplied functions, then the built-ins, then the const functions;
for a function found in the first two registries arity is enforced through
`check_function_args` before invocation — more children than a declared
`max_args` limit fails with `ArgumentsGreater` of that limit and fewer
than `min_args` with `ArgumentsLess` of it, so `len()` fails
`ArgumentsLess(1)` and `len(1, 2)` fails `ArgumentsGreater(1)` — while a
const function is invoked without any arity check (the unamended claim
fails there; see the counterexample), and an unresolved name fails with
`FunctionNotExists(name)`. -/
theorem c1_function_resolution (fuel : Nat) (builtin fns consts : Functions)
    (contexts : List Context) (name : String) (children : List Node)
    (closed : Bool) (vs : List Value)
    (hargs : execArgs (fun c => exec_node fuel c builtin contexts fns consts)
        children = .ok vs) :
    (∀ fo, fns.get? name = some fo →
      exec_node (fuel + 1) (Node.mk (.function name) children closed)
          builtin contexts fns consts =
        match (Node.mk (.function name) children closed).check_function_args fo with
        | .error e => .error e
        | .ok _ => fo.compiled vs) ∧
    (fns.get? name = none → ∀ fo, builtin.get? name = some fo →
      exec_node (fuel + 1) (Node.mk (.function name) children closed)
          builtin contexts fns consts =
        match (Node.mk (.function name) children closed).check_function_args fo with
        | .error e => .error e
        | .ok _ => fo.compiled vs) ∧
    (fns.get? name = none → builtin.get? name = none →
      ∀ fo, consts.get? name = some fo →
      exec_node (fuel + 1) (Node.mk (.function name) children closed)
          builtin contexts fns consts = fo.compiled vs) ∧
    (fns.get? name = none → builtin.get? name = none → consts.get? name = none →
      exec_node (fuel + 1) (Node.mk (.function name) children closed)
          builtin contexts fns consts = .error (.err (.functionNotExists name))) ∧
    (∀ (f0 : Function) (lim : Nat), f0.max_args = some lim →
      children.length > lim →
      (Node.mk (.function name) children closed).check_function_args f0 =
        .error (.err (.argumentsGreater lim))) ∧
    (∀ (f0 : Function) (lim : Nat),
      (∀ m, f0.max_args = some m → children.length ≤ m) →
      f0.min_args = some lim → children.length < lim →
      (Node.mk (.function name) children closed).check_function_args f0 =
        .error (.err (.argumentsLess lim))) ∧
    evalStringF 5 "len()" [] [] [] = .error (.err (.argumentsLess 1)) ∧
    evalStringF 5 "len(1, 2)" [] [] [] = .error (.err (.argumentsGreater 1)) := by
  refine ⟨?_, ?_, ?_, ?_, ?_, ?_, rfl, rfl⟩
  · intro fo hfo
    simp [exec_node, Node.operator, Node.children, hargs,
          Functions.containsKey, hfo]
  · intro hfns fo hfo
    simp [exec_node, Node.operator, Node.children, hargs,
          Functions.containsKey, hfns, hfo]
  · intro hfns hb fo hfo
    simp [exec_node, Node.operator, Node.children, hargs,
          Functions.containsKey, hfns, hb, hfo]
  · intro hfns hb hc
    simp [exec_node, Node.operator, Node.children, hargs,
          Functions.containsKey, hfns, hb, hc]
  · intro f0 lim hmax hgt
    simp [Node.check_function_args, Node.children, hmax, hgt]
  · intro f0 lim hmax hmin hlt
    rcases hm : f0.max_args with _ | m
    · simp [Node.check_function_args, Node.children, hm, hmin, hlt]
    · have hle := hmax m hm
      simp [Node.check_function_args, Node.children, hm, hmin, hlt,
            Nat.not_lt.mpr hle]
  
/-- Witness for C1 at concrete registries: a caller-supplied function
shadows a built-in and is arity-checked; an unknown name fails. -/
theorem c1_function_resolution_witness :
    exec_node 2 (Node.mk (.function "len") [valueNode .null] false)
      create_builtins []
      [("len", { max_args := some 1, min_args := some 1,
                 compiled := fun _ => .ok (.numU 99) })] [] = .ok (.numU 99) ∧
    exec_node 2 (Node.mk (.function "nowhere") [] false)
      create_builtins [] [] [] = .error (.err (.functionNotExists "nowhere")) ∧
    evalStringF 5 "len()" [] [] [] = .error (.err (.argumentsLess 1)) ∧
    evalStringF 5 "len(1, 2)" [] [] [] = .error (.err (.argumentsGreater 1)) := by
  have h1 := (c1_function_resolution 1 create_builtins
    [("len", { max_args := some 1, min_args := some 1,
               compiled := fun _ => .ok (.numU 99) })] [] [] "len"
    [valueNode .null] false [.null] rfl).1 _ rfl
  have h2 := (c1_function_resolution 1 create_builtins [] [] [] "nowhere"
    [] false [] rfl).2.2.2.1 rfl rfl rfl
  exact ⟨h1.trans rfl, h2, rfl, rfl⟩

/-- C1 counterexample: a const function with `max_args = 0` invoked with
one argument succeeds — no arity check is performed for const functions,
contradicting the claim that arity is enforced whenever the resolved
function is invoked (which would require `ArgumentsGreater(0)` here). -/
theorem c1_counterexample :
    exec_node 2 (Node.mk (.function "cf") [valueNode (.numU 7)] false)
      create_builtins [] []
      [("cf", { max_args := some 0, min_args := some 0,
                compiled := fun _ => .ok (.numU 42) })] = .ok (.numU 42) ∧
    (Except.ok (Value.numU 42) : Except RtError Value) ≠
      .error (.err (.argumentsGreater 0)) := by
  refine ⟨rfl, ?_⟩
  intro h
  exact Except.noConfusion h

end Eval

namespace Eval

/-- Indexing past the end of an array payload yields nothing. -/
theorem ValueList.get?_none : ∀ (l : ValueList) (i : Nat), l.length ≤ i → l.get? i = none
  | .nil, _, _ => rfl
  | .cons v tl, 0, hi => by simp [ValueList.length] at hi
  | .cons v tl, i + 1, hi =>
      ValueList.get?_none tl i (by simp [ValueList.length] at hi; omega)

/-- A chain segment wrapped around a subtree that evaluates to `Null`
evaluates to `Null` itself. -/
theorem dot_null_propagation (fuel : Nat) (n : Node) (s : String)
    (builtin fns consts : Functions) (contexts : List Context)
    (h : exec_node fuel n builtin contexts fns consts = .ok .null) :
    exec_node (fuel + 1) (dotExtend n s) builtin contexts fns consts = .ok .null := by
  simp [dotExtend, exec_node, Node.operator, Node.children, dotLoop, h,
        Value.isString, Value.isObject, Value.isNull]

/-- An identifier that is not numeric, not a range literal and unbound in
every context evaluates to `Null`. -/
theorem ident_unbound_null (fuel : Nat) (h : String)
    (builtin fns consts : Functions) (contexts : List Context)
    (hnum : parse_number h = none) (hrng : is_range h = false)
    (hfind : find contexts h = none) :
    exec_node (fuel + 1) (identNode h) builtin contexts fns consts = .ok .null := by
  simp [identNode, exec_node, Node.operator, hnum, hrng, hfind]

/-- C3 (confirmed): missing lookups do not raise errors in member and
indexing chains.  A `Dot` chain whose head identifier is unbound in every
context (and is not a numeric or range literal) evaluates to `Null`, and a
chain segment around a `Null` subtree stays `Null`, so whole chains
propagate `Null`; a bracket chain whose subtree is `Null`, or whose `u64`
index lies outside the array, likewise yields `Null` rather than an
error; on the full pipeline, `missing.field.deep` and `missing[0][1]`
under an empty context both evaluate to `Null`. -/
theorem c3_null_chains (builtin fns consts : Functions)
    (contexts : List Context) :
    (∀ (fuel : Nat) (n : Node) (s : String),
      exec_node fuel n builtin contexts fns consts = .ok .null →
      exec_node (fuel + 1) (dotExtend n s) builtin contexts fns consts =
        .ok .null) ∧
    (∀ (fuel : Nat) (h s : String),
      parse_number h = none → is_range h = false → find contexts h = none →
      exec_node (fuel + 2) (dotBase h s) builtin contexts fns consts =
        .ok .null) ∧
    (∀ (fuel : Nat) (h s : String) (rest : List String),
      parse_number h = none → is_range h = false → find contexts h = none →
      exec_node (fuel + 2 + rest.length) (chainNode h s rest)
        builtin contexts fns consts = .ok .null) ∧
    (∀ (fuel : Nat) (n c : Node) (i : Nat) (l : ValueList),
      exec_node fuel n builtin contexts fns consts = .ok (.arr l) →
      exec_node fuel c builtin contexts fns consts = .ok (.numU i) →
      l.length ≤ i →
      exec_node (fuel + 1) (Node.mk (.leftSquareBracket 7) [n, c] true)
        builtin contexts fns consts = .ok .null) ∧
    (∀ (fuel : Nat) (n c : Node),
      exec_node fuel n builtin contexts fns consts = .ok .null →
      exec_node (fuel + 1) (Node.mk (.leftSquareBracket 7) [n, c] true)
        builtin contexts fns consts = .ok .null) ∧
    evalStringF 9 "missing.field.deep" [] [] [] = .ok .null ∧
    evalStringF 9 "missing[0][1]" [] [] [] = .ok .null := by
  have hbase : ∀ (fuel : Nat) (h s : String),
      parse_number h = none → is_range h = false → find contexts h = none →
      exec_node (fuel + 2) (dotBase h s) builtin contexts fns consts =
        .ok .null := by
    intro fuel h s hnum hrng hfind
    have hh := ident_unbound_null fuel h builtin fns consts contexts hnum hrng hfind
    have hprop := dot_null_propagation (fuel + 1) (identNode h) s
      builtin fns consts contexts hh
    simpa [dotBase, dotExtend] using hprop
  have hchain : ∀ (rest : List String) (fuel : Nat) (n : Node),
      exec_node fuel n builtin contexts fns consts = .ok .null →
      exec_node (fuel + rest.length) (rest.foldl dotExtend n)
        builtin contexts fns consts = .ok .null := by
    intro rest
    induction rest with
    | nil => intro fuel n h; simpa using h
    | cons t ts ih =>
        intro fuel n h
        have hstep := dot_null_propagation fuel n t builtin fns consts contexts h
        have := ih (fuel + 1) (dotExtend n t) hstep
        have harith : fuel + 1 + ts.length = fuel + (t :: ts).length := by
          simp [List.length_cons]; omega
        rwa [harith] at this
  refine ⟨fun fuel n s h => dot_null_propagation fuel n s builtin fns consts contexts h,
          hbase, ?_, ?_, ?_, rfl, rfl⟩
  · intro fuel h s rest hnum hrng hfind
    have := hchain rest (fuel + 2) (dotBase h s) (hbase fuel h s hnum hrng hfind)
    exact this
  · intro fuel n c i l hn hc hlen
    have hget := ValueList.get?_none l i hlen
    simp [exec_node, Node.operator, Node.children, idxLoop, hn, hc,
          Value.isString, Value.isArray, Value.isObject, Value.isNull,
          Value.isU64, Value.getU64, Value.arrGet?, hget]
  · intro fuel n c hn
    simp [exec_node, Node.operator, Node.children, idxLoop, hn,
          Value.isString, Value.isArray, Value.isObject, Value.isNull]

/-- Witness for C3 at the concrete chain `missing.field.deep` and the
out-of-bounds index `[0]` on an empty array. -/
theorem c3_null_chains_witness :
    exec_node 3 (chainNode "missing" "field" ["deep"]) create_builtins [] [] [] =
      .ok .null ∧
    exec_node 2 (Node.mk (.leftSquareBracket 7)
        [valueNode (.arr .nil), valueNode (.numU 0)] true)
      create_builtins [] [] [] = .ok .null ∧
    evalStringF 9 "missing.field.deep" [] [] [] = .ok .null :=
  ⟨(c3_null_chains create_builtins [] [] []).2.2.1 0 "missing" "field" ["deep"]
     rfl rfl rfl,
   (c3_null_chains create_builtins [] [] []).2.2.2.1 1 (valueNode (.arr .nil))
     (valueNode (.numU 0)) 0 .nil rfl rfl (by simp [ValueList.length]),
   (c3_null_chains create_builtins [] [] []).2.2.2.2.2.1⟩

end Eval

namespace Eval

/-- C4 (confirmed): for a priority-carrying incoming operator, when the
top of the stack is a complete left operand (`is_value_or_full_children`)
that is not closed and whose operator priority is strictly below the
incoming priority, the builder robs: the top node's rightmost child is
detached and becomes the incoming operator's left child, and both the
robbed parent and the new node are pushed back (new node on top); when
instead the top is a complete left operand whose priority is greater than
or equal to the incoming priority, the top is wrapped as the incoming
operator's sole child. -/
theorem c4_rob_or_wrap (rest : List Node) (prev : Node) (op : Operator)
    (hop : op.isPriorityOp = true)
    (hfull : prev.is_value_or_full_children = true) :
    (∀ c, prev.operator.get_priority < op.get_priority → prev.closed = false →
      prev.children.getLast? = some c →
      parse_step (prev :: rest) op =
        .ok (Node.mk op [c] false ::
             Node.mk prev.operator prev.children.dropLast prev.closed :: rest)) ∧
    (op.get_priority ≤ prev.operator.get_priority →
      parse_step (prev :: rest) op = .ok (Node.mk op [prev] false :: rest)) := by
  constructor
  · intro c hlt hclosed hlast
    simp [parse_step, hop, hfull, hlt, hclosed, rob_to, hlast,
          Operator.to_node, Node.add_child, Operator.children_to_node]
  · intro hge
    have hnlt : ¬ prev.operator.get_priority < op.get_priority := by omega
    simp [parse_step, hop, hfull, hnlt, Operator.children_to_node]

/-- Witness for C4: `Mul` robs the right operand of an open `Add` node;
an incoming operator of equal priority wraps the same node instead. -/
theorem c4_rob_or_wrap_witness :
    parse_step [Node.mk (.add 4) [identNode "1", identNode "2"] false] (.mul 5) =
      .ok [Node.mk (.mul 5) [identNode "2"] false,
           Node.mk (.add 4) [identNode "1"] false] ∧
    parse_step [Node.mk (.add 4) [identNode "1", identNode "2"] false] (.add 4) =
      .ok [Node.mk (.add 4)
             [Node.mk (.add 4) [identNode "1", identNode "2"] false] false] := by
  constructor
  · have h := (c4_rob_or_wrap []
      (Node.mk (.add 4) [identNode "1", identNode "2"] false) (.mul 5)
      rfl rfl).1 (identNode "2") (by decide) rfl rfl
    exact h.trans rfl
  · have h := (c4_rob_or_wrap []
      (Node.mk (.add 4) [identNode "1", identNode "2"] false) (.add 4)
      rfl rfl).2 (by decide)
    exact h

end Eval

namespace Eval

/-- C8 counterexample: parsing the token stream of `a.b c`, the builder
closes the node `a.b` after attaching `b`, yet the next value token `c` is
attached to that same closed node by `append_value_to_last_node`: its
children grow from two to three with `closed` already set, so a closed
node is not immune from gaining children. -/
theorem c8_counterexample :
    parse_operators "a.b c" =
      .ok [.identifier "a", .dot 7, .identifier "b", .identifier "c"] ∧
    run_parse [] [.identifier "a", .dot 7, .identifier "b"] =
      .ok [Node.mk (.dot 7) [identNode "a", identNode "b"] true] ∧
    (Node.mk (.dot 7) [identNode "a", identNode "b"] true).closed = true ∧
    append_value_to_last_node
        [Node.mk (.dot 7) [identNode "a", identNode "b"] true] (.identifier "c") =
      .ok [Node.mk (.dot 7) [identNode "a", identNode "b", identNode "c"] true] ∧
    run_parse [] [.identifier "a", .dot 7, .identifier "b", .identifier "c"] =
      .ok [Node.mk (.dot 7) [identNode "a", identNode "b", identNode "c"] true] :=
  ⟨rfl, rfl, rfl, rfl, rfl⟩

/-- C8 (amended): the closed flag protects a node from gaining children
in the value-attachment step only when its operator is not `Dot`: for a
closed non-`Dot` top of stack, `append_value_to_last_node` either fails
(`DuplicateValueNode` or `CanNotAddChild`) or pushes the value as a
sibling, leaving the closed node unchanged; the `Dot` branch, however,
attaches the value to the top node without consulting `closed`, so the
claimed invariant does not hold of the builder as a whole (see the
counterexample reached from the source text `a.b c`). -/
theorem c8_closed_append (prev : Node) (rest : List Node) (op : Operator)
    (hclosed : prev.closed = true) :
    (prev.is_dot = false →
      append_value_to_last_node (prev :: rest) op =
          .error (.err .duplicateValueNode) ∨
      append_value_to_last_node (prev :: rest) op =
          .error (.err .canNotAddChild) ∨
      append_value_to_last_node (prev :: rest) op =
          .ok ((op.to_node).close :: prev :: rest)) ∧
    (prev.is_dot = true →
      append_value_to_last_node (prev :: rest) op =
        .ok (((prev.add_child ((op.to_node).close)).close) :: rest)) := by
  obtain ⟨pop, pchildren, pclosed⟩ := prev
  simp only [Node.closed] at hclosed
  subst hclosed
  constructor
  · intro hnd
    cases pop <;> (try rcases pchildren with _ | ⟨c0, cr⟩) <;>
      simp_all [append_value_to_last_node, Node.is_dot, Operator.is_dot,
        Node.is_left_square_bracket, Node.is_value_or_full_children,
        Operator.is_value_or_ident, Operator.can_have_child, Node.is_enough,
        Operator.get_max_args, Node.closed, Node.operator, Node.children,
        Operator.to_node, Node.close]
  · intro hd
    cases pop <;>
      simp_all [append_value_to_last_node, Node.is_dot, Operator.is_dot,
        Node.add_child, Node.close, Node.operator, Node.children]

/-- Witness for C8 at a closed bracket node and at a closed `Dot` node. -/
theorem c8_closed_append_witness :
    ((Node.mk (.leftSquareBracket 7) [] true).closed = true) ∧
    (append_value_to_last_node [Node.mk (.leftSquareBracket 7) [] true]
         (.value .null) = .error (.err .duplicateValueNode) ∨
     append_value_to_last_node [Node.mk (.leftSquareBracket 7) [] true]
         (.value .null) = .error (.err .canNotAddChild) ∨
     append_value_to_last_node [Node.mk (.leftSquareBracket 7) [] true]
         (.value .null) =
       .ok (((Operator.value .null).to_node).close ::
            Node.mk (.leftSquareBracket 7) [] true :: [])) ∧
    append_value_to_last_node [Node.mk (.dot 7) [identNode "a"] true]
        (.identifier "b") =
      .ok [Node.mk (.dot 7) [identNode "a", identNode "b"] true] :=
  ⟨rfl,
   (c8_closed_append (Node.mk (.leftSquareBracket 7) [] true) [] (.value .null)
      rfl).1 rfl,
   ((c8_closed_append (Node.mk (.dot 7) [identNode "a"] true) [] (.identifier "b")
      rfl).2 rfl).trans rfl⟩

end Eval

namespace Eval

/-- C6 (confirmed): when the tokenizer meets a `(` token with no quote
open, no pending number and no pending comparator prefix, and the most
recently emitted operator is an `Identifier`, that identifier is replaced
by `Function` of the same name and the `LeftParenthesis` is emitted after
it (the parenthesis counter increments, everything else is unchanged) —
this is how `foo(...)` lexes as a call rather than grouping. -/
theorem c6_function_head (st : LexState) (name : String)
    (hq : st.quote = none)
    (hnum : st.number = "")
    (h1 : st.prev ≠ "!") (h2 : st.prev ≠ ">") (h3 : st.prev ≠ "<")
    (hlast : st.operators.getLast? = some (.identifier name)) :
    lexStep st "(" =
      .ok { st with parenthesis := st.parenthesis + 1,
                    operators := st.operators.dropLast ++
                      [.function name, .leftParenthesis] } := by
  simp [lexStep, hq, hnum, h1, h2, h3, hlast, Operator.from_str,
        Operator.is_dot, Operator.is_identifier, Operator.get_identifier,
        parse_number, parse_u64, parse_i64, parse_f64_ok, digitsVal,
        digitsVal.go, Char.isDigit, floatMantissaOk, allDigits,
        String.isEmpty]
  intro h
  exact absurd h (by decide)

/-- Witness for C6 after lexing the single identifier `foo`. -/
theorem c6_function_head_witness :
    lexStep { operators := [.identifier "foo"], parenthesis := 0,
              quote := none, prev := "foo", number := "" } "(" =
      .ok { operators := [.function "foo", .leftParenthesis], parenthesis := 1,
            quote := none, prev := "foo", number := "" } :=
  (c6_function_head
    { operators := [.identifier "foo"], parenthesis := 0,
      quote := none, prev := "foo", number := "" } "foo"
    rfl rfl (by decide) (by decide) (by decide) rfl).trans rfl

end Eval

namespace Eval

/-- C7 (confirmed): when the tokenizer loop finishes, any pending number
accumulator is flushed as one final operator, and lexing fails with
`UnpairedBrackets` exactly when the running parenthesis counter
(incremented on `(` and decremented on `)`) is non-zero; in particular the
pipeline rejects `(1 + 2` with `UnpairedBrackets`. -/
theorem c7_lex_end :
    (∀ (raw : String) (st : LexState),
      lexRun LexState.init (cutRaws (parse_pos raw.toList) 0 raw.toList) = .ok st →
      parse_operators raw =
        if st.parenthesis ≠ 0 then .error (.err .unpairedBrackets)
        else .ok (if st.number ≠ "" then
                    st.operators ++ [Operator.from_str st.number]
                  else st.operators)) ∧
    compileTree "(1 + 2" = .error (.err .unpairedBrackets) := by
  refine ⟨?_, rfl⟩
  intro raw st h
  simp only [parse_operators, h, lexFinish]

/-- Witness for C7 at the concrete source `(1 + 2`, whose tokenizer run
ends with parenthesis counter 1 and the pending number `2`. -/
theorem c7_lex_end_witness :
    parse_operators "(1 + 2" = .error (.err .unpairedBrackets) ∧
    compileTree "(1 + 2" = .error (.err .unpairedBrackets) :=
  ⟨(c7_lex_end.1 "(1 + 2"
      { operators := [.leftParenthesis, .identifier "1", .add 4],
        parenthesis := 1, quote := none, prev := "+", number := "2" } rfl).trans rfl,
   c7_lex_end.2⟩

end Eval
